import Mathlib

/-!
Verification of the IP-pool admission validator
(`pkg/webhook/ippool/validator.go`).

The validator decides, for Create / Update / Delete admission requests on
IP-pool resources, whether the pool's ranges, allocations and selector are
consistent with the other pools stored in the cluster.

Shallow embedding notes:
* IP addresses are represented by natural numbers; an address *string* is
  represented by its parse result (`Option Nat`, `none` meaning the string
  does not parse as an IP).
* Range descriptors are represented by their already-parsed `AddressRange`;
  the parse boundary (`ipam.LBRangesToAllocatorRangeSet`) is modelled as the
  identity on well-parsed descriptors, since no studied property concerns
  parse failures.
* The repository (`ipPoolCache.List`) is modelled as an explicit list of
  pools passed to each entry point; label filtering by the global-pool
  marker becomes a filter on a boolean field.
-/

/-- A scope entry of a selector: a project / namespace / guest-cluster
triple, each dimension optional (empty string = wildcard).  Mirrors the
`Project`, `Namespace`, `GuestCluster` fields used by the validator. -/
structure ScopeEntry where
  project : String
  nspace : String
  guestCluster : String
deriving DecidableEq, Repr

/-- A pool selector: priority, network and an ordered scope list
(`pool.Spec.Selector`). -/
structure Selector where
  priority : Nat
  network : String
  scope : List ScopeEntry
deriving DecidableEq, Repr

/-- Modelled from the spec: `ipam.Requirement`, the probe value tested
against a selector (the `ipam` package is outside the studied module). -/
structure Requirement where
  network : String
  project : String
  nspace : String
  cluster : String
deriving DecidableEq, Repr

/-- Modelled from the spec: a single scope entry matches a requirement when
every non-empty dimension of the entry (project / namespace / cluster)
equals the requirement's value on that dimension. -/
def scopeEntryMatches (t : ScopeEntry) (r : Requirement) : Bool :=
  (t.project == "" || t.project == r.project) &&
  (t.nspace == "" || t.nspace == r.nspace) &&
  (t.guestCluster == "" || t.guestCluster == r.cluster)

/-- Modelled from the spec: `ipam.NewMatcher(s).Matches(r)` — the Selector
Matcher, whose source lies in the `ipam` package outside the studied module.
A selector matches a requirement iff its network equals the requirement's
network (when the selector's network is non-empty) and some entry of its
scope matches the requirement on every non-empty dimension.  The spec's
alternative parenthetical, under which an empty scope list would match
unconditionally, is not adopted: under it the final iteration of
`checkSelectorItself` (whose synthetic selector always has an empty scope)
would match its own requirement, so every pool with a non-empty scope would
be rejected — contradicting the spec's §8 worked examples and the stated
purpose of the self-check.  An empty scope therefore matches no
requirement. -/
def Matches (s : Selector) (r : Requirement) : Bool :=
  (s.network == "" || s.network == r.network) &&
  s.scope.any (fun t => scopeEntryMatches t r)

/-- The requirement built by the validator from a scope entry and the
pool's own network (`r.Project = t.Project; ...`). -/
def reqOf (network : String) (t : ScopeEntry) : Requirement :=
  { network := network, project := t.project, nspace := t.nspace,
    cluster := t.guestCluster }

/-- Modelled from the spec: `allocator.Range` — a contiguous address range
`{start, end}` with invariant `start ≤ end` (addresses as naturals). -/
structure AddressRange where
  start : Nat
  stop : Nat
deriving DecidableEq, Repr

/-- A range is well formed when its start does not exceed its end
(spec invariant `start <= end`). -/
def AddressRange.wellFormed (r : AddressRange) : Bool :=
  r.start ≤ r.stop

/-- An address lies inside a range. -/
def AddressRange.containsIP (r : AddressRange) (ip : Nat) : Bool :=
  r.start ≤ ip && ip ≤ r.stop

/-- Modelled from the spec: `Range.Overlaps` of the allocator library —
two ranges overlap when neither lies strictly beyond the other, i.e. they
share at least one address (for well-formed ranges). -/
def AddressRange.Overlaps (r1 r2 : AddressRange) : Bool :=
  r1.start ≤ r2.stop && r2.start ≤ r1.stop

/-- A range set: the ordered ranges owned by one pool. -/
abbrev RangeSet := List AddressRange

/-- Modelled from the spec: `RangeSet.Contains` — membership of an address
in some range of the set. -/
def RangeSet.Contains (rs : RangeSet) (ip : Nat) : Bool :=
  rs.any (fun r => r.containsIP ip)

/-- Modelled from the spec: `RangeSet.Overlaps` of the allocator library —
some range of the first set overlaps some range of the second. -/
def RangeSet.OverlapsSet (rs other : RangeSet) : Bool :=
  rs.any (fun r1 => other.any (fun r2 => r1.Overlaps r2))

/-- The verdict errors of the validator (`fmt.Errorf` calls), by kind and
payload. -/
inductive VErr where
  | emptyRange : VErr
  | rangeOverlap (r1 r2 : AddressRange) : VErr
  | crossOverlap (rs : RangeSet) : VErr
  | invalidIP : VErr
  | allocatedExcluded (ip : Nat) : VErr
  | invalidSelector (e : VErr) : VErr
  | scopeOverlapSelf : VErr
  | scopeOverlapWith (name : String) (t : ScopeEntry) : VErr
  | dupPriority (name : String) : VErr
  | dupGlobal (name : String) : VErr
  | nonEmptyPoolDeletion : VErr
  | createWrap (name : String) (e : VErr) : VErr
  | updateWrap (name : String) (e : VErr) : VErr
deriving DecidableEq, Repr

/-- An IP-pool resource as the validator consumes it: name, parsed ranges,
selector, allocated mapping (address parse result paired with its consumer),
deletion-timestamp flag, and the global-pool label marker.
The marker field models the `utils.KeyGlobalIPPool = "true"` label tested by
`isGlobalIPPool` and by the label-filtered repository listing. -/
structure IPPool where
  name : String
  ranges : List AddressRange
  selector : Selector
  allocated : List (Option Nat × String)
  deletionTimestamp : Bool
  globalMarker : Bool
deriving DecidableEq, Repr

/-- Modelled from the spec: `isGlobalIPPool` (defined outside the studied
module) — whether the pool carries the global-pool marker label. -/
def isGlobalIPPool (p : IPPool) : Bool :=
  p.globalMarker

/-- `getOtherPoolsRanges`: the range sets of every stored pool whose name
differs from the pool under admission. -/
def getOtherPoolsRanges (repo : List IPPool) (myName : String) : List RangeSet :=
  (repo.filter (fun p => p.name != myName)).map (fun p => p.ranges)

/-- The self-overlap scan of `checkRange`: each range against the ranges
after it, returning the first overlapping pair. -/
def checkRangeSelf : List AddressRange → Option VErr
  | [] => none
  | r1 :: rest =>
    match rest.find? (fun r2 => r1.Overlaps r2) with
    | some r2 => some (.rangeOverlap r1 r2)
    | none => checkRangeSelf rest

/-- The cross-pool scan of `checkRange`: the candidate set against each
other pool's set; the error names the candidate's ranges. -/
def checkRangeCross (rs : RangeSet) (others : List RangeSet) : Option VErr :=
  match others.find? (fun o => rs.OverlapsSet o) with
  | some _ => some (.crossOverlap rs)
  | none => none

/-- `checkRange`: self-overlap scan, then cross-pool scan. -/
def checkRange (rs : RangeSet) (others : List RangeSet) : Option VErr :=
  match checkRangeSelf rs with
  | some e => some e
  | none => checkRangeCross rs others

/-- `checkAllocated`: every allocated address must parse and be contained
in the range set; the first offending entry decides the error. -/
def checkAllocated (rs : RangeSet) : List (Option Nat × String) → Option VErr
  | [] => none
  | (ipOpt, _) :: rest =>
    match ipOpt with
    | none => some .invalidIP
    | some ip =>
      if rs.Contains ip then checkAllocated rs rest
      else some (.allocatedExcluded ip)

/-- The loop body of `checkGlobalIPPool`: the first listed global pool
whose name differs from the pool under admission is reported. -/
def checkGlobalIPPoolAux (myName : String) : List IPPool → Option VErr
  | [] => none
  | p :: rest =>
    if p.name == myName then checkGlobalIPPoolAux myName rest
    else some (.dupGlobal p.name)

/-- `checkGlobalIPPool`: list the pools carrying the global marker and
fail on the first one that is not the pool itself. -/
def checkGlobalIPPool (repo : List IPPool) (pool : IPPool) : Option VErr :=
  checkGlobalIPPoolAux pool.name (repo.filter (fun p => isGlobalIPPool p))

/-- The loop of `checkSelectorItself`: entry `i` (as a requirement) is
tested against a synthetic selector whose scope is the entries after `i`,
with the pool's priority and network. -/
def checkSelectorItselfAux (priority : Nat) (network : String) :
    List ScopeEntry → Option VErr
  | [] => none
  | t :: rest =>
    if Matches { priority := priority, network := network, scope := rest }
        (reqOf network t) then
      some .scopeOverlapSelf
    else checkSelectorItselfAux priority network rest

/-- `checkSelectorItself`: internal scope-overlap scan of one selector. -/
def checkSelectorItself (pool : IPPool) : Option VErr :=
  checkSelectorItselfAux pool.selector.priority pool.selector.network
    pool.selector.scope

/-- The inner scope loop of `checkSelectorWithOthers`: the first scope
entry of the pool under admission that, as a requirement, is matched by the
stored pool's selector. -/
def checkScopeAgainst (pool p : IPPool) : Option VErr :=
  match pool.selector.scope.find?
      (fun t => Matches p.selector (reqOf pool.selector.network t)) with
  | some t => some (.scopeOverlapWith p.name t)
  | none => none

/-- The loop of `checkSelectorWithOthers` over the stored pools: skip the
pool itself and global pools; equal non-zero priorities are a duplicate;
two zero priorities trigger the scope-overlap test. -/
def checkSelectorWithOthersAux (pool : IPPool) : List IPPool → Option VErr
  | [] => none
  | p :: rest =>
    if p.name == pool.name || isGlobalIPPool p then
      checkSelectorWithOthersAux pool rest
    else if p.selector.priority != 0 &&
        p.selector.priority == pool.selector.priority then
      some (.dupPriority p.name)
    else if p.selector.priority == 0 && pool.selector.priority == 0 then
      match checkScopeAgainst pool p with
      | some e => some e
      | none => checkSelectorWithOthersAux pool rest
    else checkSelectorWithOthersAux pool rest

/-- `checkSelectorWithOthers`: cross-pool priority / scope ambiguity
detection against the full repository listing. -/
def checkSelectorWithOthers (repo : List IPPool) (pool : IPPool) : Option VErr :=
  checkSelectorWithOthersAux pool repo

/-- `checkSelector`: global pools only face the duplicate-global check;
other pools face the internal scan (its error wrapped as an invalid
selector) and then the cross-pool scan. -/
def checkSelector (repo : List IPPool) (pool : IPPool) : Option VErr :=
  if isGlobalIPPool pool then checkGlobalIPPool repo pool
  else
    match checkSelectorItself pool with
    | some e => some (.invalidSelector e)
    | none => checkSelectorWithOthers repo pool

/-- `Create`: empty-range rejection, then range checks against all other
pools, then the selector check; each error wrapped with the pool name. -/
def Create (repo : List IPPool) (pool : IPPool) : Option VErr :=
  if pool.ranges.isEmpty then some (.createWrap pool.name .emptyRange)
  else
    match checkRange pool.ranges (getOtherPoolsRanges repo pool.name) with
    | some e => some (.createWrap pool.name e)
    | none =>
      match checkSelector repo pool with
      | some e => some (.createWrap pool.name e)
      | none => none

/-- `Update`: a pool being deleted is accepted unconditionally; otherwise
empty-range rejection, range checks, allocation check, selector check, in
that order.  The old object (first pool argument) is discarded, exactly as
the source ignores it. -/
def Update (repo : List IPPool) (_old pool : IPPool) : Option VErr :=
  if pool.deletionTimestamp then none
  else if pool.ranges.isEmpty then some (.updateWrap pool.name .emptyRange)
  else
    match checkRange pool.ranges (getOtherPoolsRanges repo pool.name) with
    | some e => some (.updateWrap pool.name e)
    | none =>
      match checkAllocated pool.ranges pool.allocated with
      | some e => some (.updateWrap pool.name e)
      | none =>
        match checkSelector repo pool with
        | some e => some (.updateWrap pool.name e)
        | none => none

/-- `Delete`: rejected exactly when the allocated mapping is non-empty. -/
def Delete (pool : IPPool) : Option VErr :=
  if pool.allocated.isEmpty then none
  else some .nonEmptyPoolDeletion

/-! Concrete pools used by the witnesses and counterexamples. -/

/-- Scope entry `{project: "p1"}`. -/
def entA : ScopeEntry := { project := "p1", nspace := "", guestCluster := "" }

/-- Scope entry `{project: "p1", namespace: "ns1"}`. -/
def entB : ScopeEntry := { project := "p1", nspace := "ns1", guestCluster := "" }

/-- Scope entry `{project: "p2"}`. -/
def entC : ScopeEntry := { project := "p2", nspace := "", guestCluster := "" }

/-- Pool A: priority 0, scope `[{project: "p1"}]`, ranges 1–10. -/
def poolA : IPPool :=
  { name := "poolA", ranges := [⟨1, 10⟩],
    selector := { priority := 0, network := "net1", scope := [entA] },
    allocated := [], deletionTimestamp := false, globalMarker := false }

/-- Pool B: priority 0, scope `[{project: "p1", namespace: "ns1"}]`,
ranges 21–30 (disjoint from pool A's). -/
def poolB : IPPool :=
  { name := "poolB", ranges := [⟨21, 30⟩],
    selector := { priority := 0, network := "net1", scope := [entB] },
    allocated := [], deletionTimestamp := false, globalMarker := false }

/-- Pool C: priority 0, scope `[{project: "p2"}]` (disjoint project). -/
def poolC : IPPool :=
  { name := "poolC", ranges := [⟨41, 50⟩],
    selector := { priority := 0, network := "net1", scope := [entC] },
    allocated := [], deletionTimestamp := false, globalMarker := false }

/-- A pool whose scope lists the broad entry before the narrow one. -/
def pool2a : IPPool :=
  { poolA with
    name := "pool2a",
    selector := { priority := 0, network := "net1", scope := [entA, entB] } }

/-- The same pool with its two scope entries in the other order. -/
def pool2b : IPPool :=
  { poolA with
    name := "pool2b",
    selector := { priority := 0, network := "net1", scope := [entB, entA] } }

/-- A stored global pool. -/
def gpool1 : IPPool := { poolA with name := "g1", globalMarker := true }

/-- A second global pool, with a deliberately conflicting selector. -/
def gpool2 : IPPool :=
  { name := "g2", ranges := [⟨61, 70⟩],
    selector := { priority := 0, network := "net1", scope := [entA, entA] },
    allocated := [], deletionTimestamp := false, globalMarker := true }

/-- A pool under deletion whose every other field would fail validation. -/
def delPool : IPPool :=
  { name := "delPool", ranges := [],
    selector := { priority := 0, network := "net1", scope := [entA, entA] },
    allocated := [(none, "c1"), (some 999, "c2")],
    deletionTimestamp := true, globalMarker := false }

/-- A pool with non-zero priority 7. -/
def pool60 : IPPool :=
  { poolA with
    name := "pool60",
    selector := { priority := 7, network := "net1", scope := [entA] } }

/-- Another pool with the same non-zero priority 7. -/
def pool61 : IPPool :=
  { poolB with
    name := "pool61",
    selector := { priority := 7, network := "net1", scope := [entC] } }

/-! Claim theorems. -/

/-- C7: `Delete` fails exactly on a non-empty allocated mapping, with the
non-empty-pool-deletion error, regardless of ranges or selector. -/
theorem C7_delete_iff_allocated_empty (pool : IPPool) :
    (Delete pool = none ↔ pool.allocated = []) ∧
    (pool.allocated ≠ [] → Delete pool = some .nonEmptyPoolDeletion) := by
  cases h : pool.allocated <;> simp [Delete, h]

/-- C8: a pool whose deletion timestamp is set is accepted by `Update`
unconditionally, whatever the old object, the repository contents, its
ranges, allocations or selector. -/
theorem C8_update_accepts_deleting_pool (repo : List IPPool)
    (old pool : IPPool) (h : pool.deletionTimestamp = true) :
    Update repo old pool = none := by
  simp [Update, h]

/-- C8 witness: the deleting pool `delPool` has empty ranges, an unparsable
and an out-of-range allocation, and a self-overlapping selector, yet update
is accepted. -/
theorem C8_update_accepts_deleting_pool_witness :
    Update [poolA] poolA delPool = none :=
  C8_update_accepts_deleting_pool [poolA] poolA delPool rfl

/-- C10: the `Update` verdict is a function of the new pool and the
repository listing only — the old object is discarded. -/
theorem C10_update_ignores_old (repo : List IPPool) (o1 o2 pool : IPPool) :
    Update repo o1 pool = Update repo o2 pool := rfl

/-- C9: empty ranges are rejected by `Create`, and by `Update` of a pool not
being deleted, with the empty-range error and independently of every other
check; on `Update` the first failing check in the order range check,
allocation check, selector check decides the error. -/
theorem C9_empty_range_and_check_order (repo : List IPPool)
    (old pool : IPPool) :
    (pool.ranges = [] →
      Create repo pool = some (.createWrap pool.name .emptyRange)) ∧
    (pool.deletionTimestamp = false → pool.ranges = [] →
      Update repo old pool = some (.updateWrap pool.name .emptyRange)) ∧
    (pool.deletionTimestamp = false → pool.ranges ≠ [] →
      ∀ e, checkRange pool.ranges (getOtherPoolsRanges repo pool.name) = some e →
      Update repo old pool = some (.updateWrap pool.name e)) ∧
    (pool.deletionTimestamp = false → pool.ranges ≠ [] →
      checkRange pool.ranges (getOtherPoolsRanges repo pool.name) = none →
      ∀ e, checkAllocated pool.ranges pool.allocated = some e →
      Update repo old pool = some (.updateWrap pool.name e)) ∧
    (pool.deletionTimestamp = false → pool.ranges ≠ [] →
      checkRange pool.ranges (getOtherPoolsRanges repo pool.name) = none →
      checkAllocated pool.ranges pool.allocated = none →
      ∀ e, checkSelector repo pool = some e →
      Update repo old pool = some (.updateWrap pool.name e)) := by
  refine ⟨?_, ?_, ?_, ?_, ?_⟩
  · intro h; simp [Create, h]
  · intro hd h; simp [Update, hd, h]
  · intro hd hne e hcr; simp [Update, hd, hne, hcr]
  · intro hd hne hcr e hca; simp [Update, hd, hne, hcr, hca]
  · intro hd hne hcr hca e hcs; simp [Update, hd, hne, hcr, hca, hcs]

/-! Allocation checker lemmas (claim C5). -/

/-- `checkAllocated` accepts exactly when every listed address parses and
lies in the range set. -/
theorem checkAllocated_eq_none_iff (rs : RangeSet) :
    ∀ l : List (Option Nat × String), checkAllocated rs l = none ↔
      ∀ pr ∈ l, ∃ ip, pr.1 = some ip ∧ rs.Contains ip = true := by
  intro l
  induction l with
  | nil => simp [checkAllocated]
  | cons hd tl ih =>
    obtain ⟨ipOpt, c⟩ := hd
    cases ipOpt with
    | none => simp [checkAllocated]
    | some ip =>
      by_cases h : rs.Contains ip = true
      · simp [checkAllocated, h, ih]
      · rw [Bool.not_eq_true] at h
        simp [checkAllocated, h]

/-- A failing `checkAllocated` returns the invalid-address error for some
unparsable listed address, or the excluded error for some listed address
outside the range set. -/
theorem checkAllocated_eq_some_spec (rs : RangeSet) :
    ∀ (l : List (Option Nat × String)) (e : VErr), checkAllocated rs l = some e →
      (e = .invalidIP ∧ ∃ c, ((none : Option Nat), c) ∈ l) ∨
      (∃ ip c, e = .allocatedExcluded ip ∧ (some ip, c) ∈ l ∧
        rs.Contains ip = false) := by
  intro l
  induction l with
  | nil => intro e h; simp [checkAllocated] at h
  | cons hd tl ih =>
    obtain ⟨ipOpt, c⟩ := hd
    intro e h
    cases ipOpt with
    | none =>
      simp [checkAllocated] at h
      exact Or.inl ⟨h.symm, c, by simp⟩
    | some ip =>
      by_cases hc : rs.Contains ip = true
      · simp only [checkAllocated, hc, if_true] at h
        rcases ih e h with ⟨he, c2, hmem⟩ | ⟨ip2, c2, he, hmem, hout⟩
        · exact Or.inl ⟨he, c2, List.mem_cons_of_mem _ hmem⟩
        · exact Or.inr ⟨ip2, c2, he, List.mem_cons_of_mem _ hmem, hout⟩
      · rw [Bool.not_eq_true] at hc
        simp [checkAllocated, hc] at h
        exact Or.inr ⟨ip, c, h.symm, by simp, hc⟩

/-- The verdict of `checkAllocated` only reads the addresses, never the
consumer values. -/
theorem checkAllocated_consumer_free (rs : RangeSet) :
    ∀ l1 l2 : List (Option Nat × String),
      l1.map Prod.fst = l2.map Prod.fst →
      checkAllocated rs l1 = checkAllocated rs l2 := by
  intro l1
  induction l1 with
  | nil =>
    intro l2 h
    cases l2 with
    | nil => rfl
    | cons hd2 tl2 => simp at h
  | cons hd tl ih =>
    intro l2 h
    cases l2 with
    | nil => simp at h
    | cons hd2 tl2 =>
      obtain ⟨ipOpt, c⟩ := hd
      obtain ⟨ipOpt2, c2⟩ := hd2
      simp only [List.map_cons, List.cons.injEq] at h
      obtain ⟨h1, h2⟩ := h
      subst h1
      cases ipOpt with
      | none => simp [checkAllocated]
      | some ip =>
        by_cases hc : rs.Contains ip = true
        · simp [checkAllocated, hc, ih tl2 h2]
        · rw [Bool.not_eq_true] at hc
          simp [checkAllocated, hc]

/-- C5: `checkAllocated` accepts iff every allocated address parses and is
contained in the range set; a failure is an invalid-address error for an
unparsable listed address or an excluded error for a listed address outside
the set; and the verdict is independent of the consumer values. -/
theorem C5_check_allocated (rs : RangeSet) (alloc : List (Option Nat × String)) :
    (checkAllocated rs alloc = none ↔
      ∀ pr ∈ alloc, ∃ ip, pr.1 = some ip ∧ rs.Contains ip = true) ∧
    (∀ e, checkAllocated rs alloc = some e →
      (e = .invalidIP ∧ ∃ c, ((none : Option Nat), c) ∈ alloc) ∨
      (∃ ip c, e = .allocatedExcluded ip ∧ (some ip, c) ∈ alloc ∧
        rs.Contains ip = false)) ∧
    (∀ alloc2 : List (Option Nat × String),
      alloc.map Prod.fst = alloc2.map Prod.fst →
      checkAllocated rs alloc = checkAllocated rs alloc2) :=
  ⟨checkAllocated_eq_none_iff rs alloc, checkAllocated_eq_some_spec rs alloc,
   checkAllocated_consumer_free rs alloc⟩

/-! Global-pool lemmas (claim C3). -/

/-- The duplicate-global scan accepts exactly when every listed pool is the
pool itself. -/
theorem checkGlobalIPPoolAux_eq_none_iff (myName : String) :
    ∀ l : List IPPool, checkGlobalIPPoolAux myName l = none ↔
      ∀ p ∈ l, p.name = myName := by
  intro l
  induction l with
  | nil => simp [checkGlobalIPPoolAux]
  | cons p rest ih =>
    by_cases h : p.name = myName
    · simp [checkGlobalIPPoolAux, h, ih]
    · simp [checkGlobalIPPoolAux, h]

/-- When some listed pool has another name, the duplicate-global scan
reports a listed pool with another name. -/
theorem checkGlobalIPPoolAux_some (myName : String) :
    ∀ l : List IPPool, (∃ p ∈ l, p.name ≠ myName) →
      ∃ q ∈ l, q.name ≠ myName ∧
        checkGlobalIPPoolAux myName l = some (.dupGlobal q.name) := by
  intro l
  induction l with
  | nil => simp
  | cons p rest ih =>
    intro hex
    by_cases h : p.name = myName
    · have hex2 : ∃ q ∈ rest, q.name ≠ myName := by
        obtain ⟨q, hq, hne⟩ := hex
        rcases List.mem_cons.mp hq with rfl | hq2
        · exact absurd h hne
        · exact ⟨q, hq2, hne⟩
      obtain ⟨q, hq, hne, heq⟩ := ih hex2
      exact ⟨q, List.mem_cons_of_mem _ hq, hne,
        by simp [checkGlobalIPPoolAux, h, heq]⟩
    · exact ⟨p, List.mem_cons_self _ _, h,
        by simp [checkGlobalIPPoolAux, h]⟩

/-- C3: for a pool marked global, the selector check accepts iff no other
stored pool is marked global — whatever its own priority or scope — and
when another global pool exists it fails with a duplicate-global error
naming such a pool. -/
theorem C3_global_pool_exclusivity (repo : List IPPool) (pool : IPPool)
    (hg : isGlobalIPPool pool = true) :
    (checkSelector repo pool = none ↔
      ∀ p ∈ repo, isGlobalIPPool p = true → p.name = pool.name) ∧
    ((∃ p ∈ repo, isGlobalIPPool p = true ∧ p.name ≠ pool.name) →
      ∃ q ∈ repo, isGlobalIPPool q = true ∧ q.name ≠ pool.name ∧
        checkSelector repo pool = some (.dupGlobal q.name)) := by
  have hsel : checkSelector repo pool = checkGlobalIPPool repo pool := by
    simp [checkSelector, hg]
  constructor
  · rw [hsel, checkGlobalIPPool, checkGlobalIPPoolAux_eq_none_iff]
    constructor
    · intro hall p hp hpg
      exact hall p (List.mem_filter.mpr ⟨hp, hpg⟩)
    · intro hall p hp
      have := List.mem_filter.mp hp
      exact hall p this.1 this.2
  · intro hex
    obtain ⟨p, hp, hpg, hpne⟩ := hex
    have hex2 : ∃ q ∈ repo.filter (fun x => isGlobalIPPool x),
        q.name ≠ pool.name := ⟨p, List.mem_filter.mpr ⟨hp, hpg⟩, hpne⟩
    obtain ⟨q, hq, hqne, heq⟩ := checkGlobalIPPoolAux_some pool.name _ hex2
    have hqm := List.mem_filter.mp hq
    exact ⟨q, hqm.1, hqm.2, hqne, by rw [hsel]; exact heq⟩

/-- C3 witness: the global pool `gpool2` (whose scope would fail every
non-global check) is accepted when no other stored pool is global. -/
theorem C3_global_pool_exclusivity_witness :
    checkSelector [poolA] gpool2 = none :=
  (C3_global_pool_exclusivity [poolA] gpool2 rfl).1.mpr (by decide)

/-! Cross-pool priority lemmas (claim C6). -/

/-- A stored pool with the admitted pool's name, or marked global, is
skipped by the cross-pool scan. -/
theorem checkSelectorWithOthersAux_skip (pool p : IPPool) (rest : List IPPool)
    (h : (p.name == pool.name || isGlobalIPPool p) = true) :
    checkSelectorWithOthersAux pool (p :: rest) =
      checkSelectorWithOthersAux pool rest := by
  simp [checkSelectorWithOthersAux, h]

/-- A considered stored pool with an equal non-zero priority stops the
cross-pool scan with a duplicate-priority error. -/
theorem checkSelectorWithOthersAux_dup (pool p : IPPool) (rest : List IPPool)
    (h : (p.name == pool.name || isGlobalIPPool p) = false)
    (hdup : (p.selector.priority != 0 &&
      p.selector.priority == pool.selector.priority) = true) :
    checkSelectorWithOthersAux pool (p :: rest) =
      some (.dupPriority p.name) := by
  simp only [checkSelectorWithOthersAux, h, hdup]
  simp

/-- A considered stored pool that triggers neither priority branch lets the
cross-pool scan continue. -/
theorem checkSelectorWithOthersAux_next (pool p : IPPool) (rest : List IPPool)
    (h : (p.name == pool.name || isGlobalIPPool p) = false)
    (hdup : (p.selector.priority != 0 &&
      p.selector.priority == pool.selector.priority) = false)
    (hzero : (p.selector.priority == 0 &&
      pool.selector.priority == 0) = false) :
    checkSelectorWithOthersAux pool (p :: rest) =
      checkSelectorWithOthersAux pool rest := by
  simp [checkSelectorWithOthersAux, h, hdup, hzero]

/-- When the admitted pool's priority is non-zero and some listed pool is a
considered one with the same priority, the scan reports such a pool. -/
theorem dupPriority_found (pool : IPPool) (hpool : pool.selector.priority ≠ 0) :
    ∀ l : List IPPool,
      (∃ p ∈ l, p.name ≠ pool.name ∧ isGlobalIPPool p = false ∧
        p.selector.priority = pool.selector.priority) →
      ∃ q ∈ l, q.name ≠ pool.name ∧ isGlobalIPPool q = false ∧
        q.selector.priority = pool.selector.priority ∧
        checkSelectorWithOthersAux pool l = some (.dupPriority q.name) := by
  intro l
  induction l with
  | nil => simp
  | cons p rest ih =>
    intro hex
    by_cases hskip : p.name = pool.name ∨ isGlobalIPPool p = true
    · have hb : (p.name == pool.name || isGlobalIPPool p) = true := by
        rcases hskip with h | h <;> simp [h]
      have hex2 : ∃ q ∈ rest, q.name ≠ pool.name ∧ isGlobalIPPool q = false ∧
          q.selector.priority = pool.selector.priority := by
        obtain ⟨q, hq, h1, h2, h3⟩ := hex
        rcases List.mem_cons.mp hq with rfl | hq2
        · rcases hskip with h | h
          · exact absurd h h1
          · rw [h] at h2; cases h2
        · exact ⟨q, hq2, h1, h2, h3⟩
      obtain ⟨q, hq, h1, h2, h3, heq⟩ := ih hex2
      exact ⟨q, List.mem_cons_of_mem _ hq, h1, h2, h3,
        by rw [checkSelectorWithOthersAux_skip pool p rest hb]; exact heq⟩
    · push_neg at hskip
      obtain ⟨hn, hgp0⟩ := hskip
      have hgp : isGlobalIPPool p = false := Bool.eq_false_iff.mpr hgp0
      have hb : (p.name == pool.name || isGlobalIPPool p) = false := by
        simp [hn, hgp]
      by_cases hdup : p.selector.priority = pool.selector.priority
      · have hd : (p.selector.priority != 0 &&
            p.selector.priority == pool.selector.priority) = true := by
          rw [hdup]
          simp [hpool]
        exact ⟨p, List.mem_cons_self _ _, hn, hgp, hdup,
          checkSelectorWithOthersAux_dup pool p rest hb hd⟩
      · have hd : (p.selector.priority != 0 &&
            p.selector.priority == pool.selector.priority) = false := by
          simp [hdup]
        have hz : (p.selector.priority == 0 &&
            pool.selector.priority == 0) = false := by
          simp [hpool]
        have hex2 : ∃ q ∈ rest, q.name ≠ pool.name ∧ isGlobalIPPool q = false ∧
            q.selector.priority = pool.selector.priority := by
          obtain ⟨q, hq, k1, k2, k3⟩ := hex
          rcases List.mem_cons.mp hq with rfl | hq2
          · exact absurd k3 hdup
          · exact ⟨q, hq2, k1, k2, k3⟩
        obtain ⟨q, hq, h1, h2, h3, heq⟩ := ih hex2
        exact ⟨q, List.mem_cons_of_mem _ hq, h1, h2, h3,
          by rw [checkSelectorWithOthersAux_next pool p rest hb hd hz]; exact heq⟩

/-- Two pools with different priorities never conflict in the cross-pool
scan, whatever their scopes. -/
theorem noConflict_of_diff_priority (x y : IPPool)
    (hne : y.selector.priority ≠ x.selector.priority) :
    checkSelectorWithOthers [y] x = none := by
  rw [checkSelectorWithOthers]
  cases hb : (y.name == x.name || isGlobalIPPool y) with
  | true => rw [checkSelectorWithOthersAux_skip x y [] hb]; rfl
  | false =>
    have hd : (y.selector.priority != 0 &&
        y.selector.priority == x.selector.priority) = false := by
      simp [hne]
    have hz : (y.selector.priority == 0 && x.selector.priority == 0) = false := by
      by_cases hy : y.selector.priority = 0
      · have hx : x.selector.priority ≠ 0 := by
          rw [hy] at hne
          exact fun h => hne h.symm
        simp [hx]
      · simp [hy]
    rw [checkSelectorWithOthersAux_next x y [] hb hd hz]; rfl

/-- C6: a stored non-global pool with the same non-zero priority as the
admitted pool makes the cross-pool check fail with a duplicate-priority
error naming such a pool, independent of scopes; two pools with different
priorities are never reported as a pair conflict, even with overlapping
scopes. -/
theorem C6_duplicate_priority (repo : List IPPool) (pool p : IPPool)
    (hp : p ∈ repo) (hname : p.name ≠ pool.name)
    (hg : isGlobalIPPool p = false) (hpri : p.selector.priority ≠ 0)
    (heq : p.selector.priority = pool.selector.priority) :
    (∃ q ∈ repo, q.name ≠ pool.name ∧ isGlobalIPPool q = false ∧
      q.selector.priority = pool.selector.priority ∧
      q.selector.priority ≠ 0 ∧
      checkSelectorWithOthers repo pool = some (.dupPriority q.name)) ∧
    (∀ x y : IPPool, y.selector.priority ≠ x.selector.priority →
      checkSelectorWithOthers [y] x = none) := by
  have hpool : pool.selector.priority ≠ 0 := heq ▸ hpri
  constructor
  · obtain ⟨q, hq, h1, h2, h3, heq2⟩ :=
      dupPriority_found pool hpool repo ⟨p, hp, hname, hg, heq⟩
    exact ⟨q, hq, h1, h2, h3, fun h0 => hpool (h3.symm.trans h0), heq2⟩
  · exact fun x y h => noConflict_of_diff_priority x y h

/-- C6 witness: two stored-versus-admitted pools sharing priority 7 are
rejected with a duplicate-priority error naming the stored pool. -/
theorem C6_duplicate_priority_witness :
    checkSelectorWithOthers [pool61] pool60 =
      some (.dupPriority "pool61") := by
  obtain ⟨q, hq, -, -, -, -, heq⟩ :=
    (C6_duplicate_priority [pool61] pool60 pool61 (by decide) (by decide)
      (by decide) (by decide) (by decide)).1
  obtain rfl := List.mem_singleton.mp hq
  exact heq

/-! Self-scope-overlap lemmas (claim C2). -/

/-- The synthetic selector built by the self-check matches the requirement
of an entry exactly when some remaining entry matches it (its network is
the requirement's own network). -/
theorem matches_synthetic (priority : Nat) (network : String)
    (rest : List ScopeEntry) (t : ScopeEntry) :
    Matches { priority := priority, network := network, scope := rest }
        (reqOf network t) =
      rest.any (fun b => scopeEntryMatches b (reqOf network t)) := by
  simp [Matches, reqOf]

/-- The self-check loop accepts exactly when no earlier entry, taken as a
requirement, is matched by a later entry. -/
theorem checkSelectorItselfAux_eq_none_iff (priority : Nat) (network : String) :
    ∀ l : List ScopeEntry, checkSelectorItselfAux priority network l = none ↔
      l.Pairwise (fun a b => scopeEntryMatches b (reqOf network a) = false) := by
  intro l
  induction l with
  | nil => simp [checkSelectorItselfAux]
  | cons t rest ih =>
    rw [List.pairwise_cons]
    cases hany : rest.any (fun b => scopeEntryMatches b (reqOf network t)) with
    | true =>
      have hmt :
          Matches { priority := priority, network := network, scope := rest }
            (reqOf network t) = true :=
        (matches_synthetic priority network rest t).trans hany
      obtain ⟨b, hb, hmatch⟩ := List.any_eq_true.mp hany
      simp only [checkSelectorItselfAux, hmt, if_true]
      constructor
      · intro h; exact absurd h (by simp)
      · intro h
        rw [h.1 b hb] at hmatch
        exact absurd hmatch (by simp)
    | false =>
      have hmf :
          Matches { priority := priority, network := network, scope := rest }
            (reqOf network t) = false :=
        (matches_synthetic priority network rest t).trans hany
      have hall : ∀ b ∈ rest, scopeEntryMatches b (reqOf network t) = false := by
        intro b hb
        have := List.any_eq_false.mp hany b hb
        exact Bool.eq_false_iff.mpr this
      simp only [checkSelectorItselfAux, hmf, Bool.false_eq_true, if_false, ih]
      constructor
      · intro h; exact ⟨hall, h⟩
      · intro h; exact h.2

/-- C2 (amended): the self-scope-overlap check fails iff some *ordered*
pair of entries overlaps in the scan's direction — an earlier entry, taken
as a requirement with the pool's network, matched by some later entry.
Pairs whose only match orientation runs from a later entry as requirement
to an earlier entry as selector are not examined, so the verdict depends on
the order of the scope list, not only on its set of entries. -/
theorem C2_self_scope_check_directional (pool : IPPool) :
    checkSelectorItself pool = none ↔
      pool.selector.scope.Pairwise
        (fun a b => scopeEntryMatches b (reqOf pool.selector.network a) = false) :=
  checkSelectorItselfAux_eq_none_iff pool.selector.priority
    pool.selector.network pool.selector.scope

/-- C2 counterexample: the unordered pair `{project p1}` /
`{project p1, namespace ns1}` overlaps under the Matcher semantics (the
narrow entry, as a requirement, is matched by a selector holding the broad
entry with the same priority and network), yet the pool listing the broad
entry first passes the self-check; listing them in the other order fails
it.  The check is therefore not a function of the unordered entry pairs. -/
theorem C2_self_scope_check_counterexample :
    checkSelectorItself pool2a = none ∧
    checkSelectorItself pool2b ≠ none ∧
    pool2a.selector.scope = [entA, entB] ∧
    pool2b.selector.scope = [entB, entA] ∧
    Matches { priority := 0, network := "net1", scope := [entA] }
      (reqOf "net1" entB) = true := by
  refine ⟨by decide, by decide, rfl, rfl, by decide⟩

/-! Cross-pool scope-overlap lemmas (claim C1). -/

/-- C1 (amended): with one stored pool, both non-global and both at
priority 0, admission of `x` passes the selector check iff no scope entry
of `x` — the pool under admission — taken as a requirement with `x`'s
network, is matched by the stored pool's selector.  The test is directional:
entries of the stored pool are never probed against `x`'s selector. -/
theorem C1_cross_scope_overlap_directional (x y : IPPool)
    (hxg : isGlobalIPPool x = false) (hyg : isGlobalIPPool y = false)
    (hname : y.name ≠ x.name) (hx0 : x.selector.priority = 0)
    (hy0 : y.selector.priority = 0)
    (hself : checkSelectorItself x = none) :
    checkSelector [y] x = none ↔
      ∀ t ∈ x.selector.scope,
        Matches y.selector (reqOf x.selector.network t) = false := by
  have hb : (y.name == x.name || isGlobalIPPool y) = false := by
    simp [hname, hyg]
  have hd : (y.selector.priority != 0 &&
      y.selector.priority == x.selector.priority) = false := by
    simp [hy0]
  have hz : (y.selector.priority == 0 && x.selector.priority == 0) = true := by
    simp [hy0, hx0]
  have hstep : checkSelector [y] x =
      match checkScopeAgainst x y with
      | some e => some e
      | none => none := by
    simp only [checkSelector, hxg, Bool.false_eq_true, if_false, hself,
      checkSelectorWithOthers, checkSelectorWithOthersAux, hb, hd, hz]
    simp
  rw [hstep, checkScopeAgainst]
  cases hfind : x.selector.scope.find?
      (fun t => Matches y.selector (reqOf x.selector.network t)) with
  | none =>
    simp only [hfind]
    have hall := List.find?_eq_none.mp hfind
    constructor
    · intro _ t ht
      exact Bool.eq_false_iff.mpr (hall t ht)
    · intro _; trivial
  | some t =>
    simp only [hfind]
    constructor
    · intro h; exact absurd h (by simp)
    · intro hall
      have hmem := List.mem_of_find?_eq_some hfind
      have hmatch := List.find?_some hfind
      rw [hall t hmem] at hmatch
      exact absurd hmatch (by simp)

/-- C1 witness: pool A (scope `{project p1}`) admitted while pool C (scope
`{project p2}`, a disjoint project) is stored passes the selector check. -/
theorem C1_cross_scope_overlap_witness :
    checkSelector [poolC] poolA = none :=
  (C1_cross_scope_overlap_directional poolA poolC rfl rfl (by decide) rfl rfl
    (by decide)).mpr (by decide)

/-- C1 counterexample: pool B (scope `{project p1, namespace ns1}`) stored
and pool A (scope `{project p1}`) under admission: both non-global at
priority 0, the scopes overlap in the claim's sense (an entry of B, as a
requirement with the shared network, is matched by A's selector), yet
`Create` of A succeeds — the claimed vice-versa failure does not occur. -/
theorem C1_cross_scope_overlap_counterexample :
    Create [poolB] poolA = none ∧
    isGlobalIPPool poolA = false ∧ isGlobalIPPool poolB = false ∧
    poolA.selector.priority = 0 ∧ poolB.selector.priority = 0 ∧
    entB ∈ poolB.selector.scope ∧
    Matches poolA.selector (reqOf poolB.selector.network entB) = true := by
  refine ⟨by decide, rfl, rfl, rfl, rfl, by decide, by decide⟩

/-! Range-overlap lemmas (claim C4). -/

/-- Two ranges sharing an address overlap. -/
theorem overlaps_of_share {r1 r2 : AddressRange} {a : Nat}
    (h1 : r1.containsIP a = true) (h2 : r2.containsIP a = true) :
    r1.Overlaps r2 = true := by
  simp [AddressRange.containsIP] at h1 h2
  simp [AddressRange.Overlaps]
  exact ⟨le_trans h1.1 h2.2, le_trans h2.1 h1.2⟩

/-- Two well-formed overlapping ranges share an address. -/
theorem share_of_overlaps {r1 r2 : AddressRange}
    (w1 : r1.wellFormed = true) (w2 : r2.wellFormed = true)
    (h : r1.Overlaps r2 = true) :
    ∃ b, r1.containsIP b = true ∧ r2.containsIP b = true := by
  simp [AddressRange.wellFormed] at w1 w2
  simp [AddressRange.Overlaps] at h
  refine ⟨max r1.start r2.start, ?_, ?_⟩ <;> simp [AddressRange.containsIP]
  · exact ⟨w1, h.2⟩
  · exact ⟨h.1, w2⟩

/-- The self-overlap scan accepts exactly when no range overlaps a later
one. -/
theorem checkRangeSelf_eq_none_iff :
    ∀ l : List AddressRange, checkRangeSelf l = none ↔
      l.Pairwise (fun r1 r2 => r1.Overlaps r2 = false) := by
  intro l
  induction l with
  | nil => simp [checkRangeSelf]
  | cons r rest ih =>
    rw [List.pairwise_cons]
    cases hfind : rest.find? (fun r2 => r.Overlaps r2) with
    | none =>
      have hall := List.find?_eq_none.mp hfind
      simp only [checkRangeSelf, hfind, ih]
      constructor
      · intro h
        exact ⟨fun b hb => Bool.eq_false_iff.mpr (hall b hb), h⟩
      · intro h; exact h.2
    | some r2 =>
      simp only [checkRangeSelf, hfind]
      constructor
      · intro h; exact absurd h (by simp)
      · intro h
        have hmem := List.mem_of_find?_eq_some hfind
        have hov := List.find?_some hfind
        rw [h.1 r2 hmem] at hov
        exact absurd hov (by simp)

/-- A failing self-overlap scan names an overlapping pair from the list. -/
theorem checkRangeSelf_eq_some_spec :
    ∀ (l : List AddressRange) (e : VErr), checkRangeSelf l = some e →
      ∃ r1 r2, r1 ∈ l ∧ r2 ∈ l ∧ r1.Overlaps r2 = true ∧
        e = .rangeOverlap r1 r2 := by
  intro l
  induction l with
  | nil => intro e h; simp [checkRangeSelf] at h
  | cons r rest ih =>
    intro e h
    cases hfind : rest.find? (fun r2 => r.Overlaps r2) with
    | none =>
      simp only [checkRangeSelf, hfind] at h
      obtain ⟨r1, r2, hm1, hm2, hov, he⟩ := ih e h
      exact ⟨r1, r2, List.mem_cons_of_mem _ hm1, List.mem_cons_of_mem _ hm2,
        hov, he⟩
    | some r2 =>
      simp only [checkRangeSelf, hfind, Option.some.injEq] at h
      exact ⟨r, r2, List.mem_cons_self _ _,
        List.mem_cons_of_mem _ (List.mem_of_find?_eq_some hfind),
        List.find?_some hfind, h.symm⟩

/-- Two well-formed range sets with no shared address do not overlap as
sets. -/
theorem overlapsSet_eq_false {rs o : RangeSet}
    (hwf1 : ∀ r ∈ rs, r.wellFormed = true)
    (hwf2 : ∀ r ∈ o, r.wellFormed = true)
    (hdisj : ∀ b, ¬(rs.Contains b = true ∧ RangeSet.Contains o b = true)) :
    rs.OverlapsSet o = false := by
  rw [Bool.eq_false_iff]
  intro hov
  obtain ⟨r1, hm1, hin⟩ := List.any_eq_true.mp hov
  obtain ⟨r2, hm2, hov2⟩ := List.any_eq_true.mp hin
  obtain ⟨b, hb1, hb2⟩ := share_of_overlaps (hwf1 r1 hm1) (hwf2 r2 hm2) hov2
  exact hdisj b ⟨List.any_eq_true.mpr ⟨r1, hm1, hb1⟩,
    List.any_eq_true.mpr ⟨r2, hm2, hb2⟩⟩

/-- C4: a candidate set holding two distinct ranges that share an address
makes `checkRange` fail with an overlap error naming an overlapping pair of
its ranges; a single range checked against no other pools never fails; and
the cross-pool scan reports no error against pools whose well-formed range
sets share no address with the candidate's. -/
theorem C4_range_overlap_checks (rs : RangeSet) (others : List RangeSet)
    (i j a : Nat) (hi : i < rs.length) (hj : j < rs.length) (hij : i ≠ j)
    (hwf : ∀ r ∈ rs, r.wellFormed = true)
    (ha1 : (rs.get ⟨i, hi⟩).containsIP a = true)
    (ha2 : (rs.get ⟨j, hj⟩).containsIP a = true) :
    (∃ r1 r2, r1 ∈ rs ∧ r2 ∈ rs ∧
      (∃ b, r1.containsIP b = true ∧ r2.containsIP b = true) ∧
      checkRange rs others = some (.rangeOverlap r1 r2)) ∧
    (∀ r : AddressRange, checkRange [r] [] = none) ∧
    (∀ (rs2 : RangeSet) (others2 : List RangeSet),
      (∀ r ∈ rs2, r.wellFormed = true) →
      (∀ o ∈ others2, ∀ r ∈ o, r.wellFormed = true) →
      (∀ o ∈ others2, ∀ b,
        ¬(rs2.Contains b = true ∧ RangeSet.Contains o b = true)) →
      checkRangeCross rs2 others2 = none) := by
  refine ⟨?_, ?_, ?_⟩
  · have hnp : ¬ rs.Pairwise (fun r1 r2 => r1.Overlaps r2 = false) := by
      rw [List.pairwise_iff_get]
      intro hpw
      rcases lt_or_gt_of_ne hij with h | h
      · have := hpw ⟨i, hi⟩ ⟨j, hj⟩ h
        rw [overlaps_of_share ha1 ha2] at this
        exact absurd this (by simp)
      · have := hpw ⟨j, hj⟩ ⟨i, hi⟩ h
        rw [overlaps_of_share ha2 ha1] at this
        exact absurd this (by simp)
    have hne : checkRangeSelf rs ≠ none := fun h =>
      hnp ((checkRangeSelf_eq_none_iff rs).mp h)
    obtain ⟨e, he⟩ := Option.ne_none_iff_exists'.mp hne
    obtain ⟨r1, r2, hm1, hm2, hov, rfl⟩ := checkRangeSelf_eq_some_spec rs e he
    refine ⟨r1, r2, hm1, hm2,
      share_of_overlaps (hwf r1 hm1) (hwf r2 hm2) hov, ?_⟩
    simp [checkRange, he]
  · intro r; rfl
  · intro rs2 others2 hwf2 hwfo hdisj
    rw [checkRangeCross]
    have hnone : others2.find? (fun o => rs2.OverlapsSet o) = none := by
      rw [List.find?_eq_none]
      intro o ho
      rw [overlapsSet_eq_false hwf2 (hwfo o ho) (hdisj o ho)]
      simp
    rw [hnone]

/-- C4 witness: the candidate `[1–10, 5–20]` holds an overlapping pair, so
`checkRange` fails even against a disjoint stored pool. -/
theorem C4_range_overlap_checks_witness :
    checkRange [⟨1, 10⟩, ⟨5, 20⟩] [[⟨30, 40⟩]] ≠ none := by
  obtain ⟨r1, r2, -, -, -, h⟩ :=
    (C4_range_overlap_checks [⟨1, 10⟩, ⟨5, 20⟩] [[⟨30, 40⟩]] 0 1 5
      (by decide) (by decide) (by decide) (by decide) (by decide)
      (by decide)).1
  rw [h]
  simp
